import Mathlib

/-!
Shallow embedding of the IPv6 fragment extension header codec of the
etherparse repository, together with its error taxonomy.

Bytes are modelled as `Nat` values below 256; machine-integer casts and
wrapping shifts of the Rust source are made explicit with `% 256` (for
`u8`) and the corresponding masks. Multi-byte big-endian integers are
assembled arithmetically, matching `uN::from_be_bytes` / `to_be_bytes`.
-/

set_option maxRecDepth 10000

namespace Etherparse

/-- Truncation layer tag, from `err::Layer`. Only the variants the claims
touch are embedded. -/
inductive Layer where
  | Ipv6FragHeader
  | Ipv4Header
  deriving DecidableEq, Repr

/-- Source of the length information, from `err::LenSource`. -/
inductive LenSource where
  | Slice
  deriving DecidableEq, Repr

/-- Length error for slice decoding, from `err::LenError`: required length,
actual length, where the length came from, the layer being decoded and the
offset at which that layer starts. -/
structure LenError where
  required_len : Nat
  len : Nat
  len_source : LenSource
  layer : Layer
  layer_start_offset : Nat
  deriving DecidableEq, Repr

/-- The IPv6 fragment header entity, from `Ipv6FragmentHeader`. The Rust
fields are `next_header : u8` (an `IpNumber` is a wrapped `u8`),
`fragment_offset : u16` (13-bit bounded in the current API via
`IpFragOffset`), `more_fragments : bool`, `identification : u32`. -/
structure Ipv6FragmentHeader where
  next_header : Nat
  fragment_offset : Nat
  more_fragments : Bool
  identification : Nat
  deriving DecidableEq, Repr

namespace Ipv6FragmentHeader

/-- Length of the serialized header (`Ipv6FragmentHeader::LEN`). -/
def LEN : Nat := 8

/-- Length of the header in bytes (`header_len`). -/
def header_len (_h : Ipv6FragmentHeader) : Nat := LEN

/-- Checks if the fragment header actually fragments the packet, from
`Ipv6FragmentHeader::is_fragmenting_payload`:
`self.more_fragments || (0 != self.fragment_offset.value())`. -/
def is_fragmenting_payload (h : Ipv6FragmentHeader) : Bool :=
  h.more_fragments || (0 != h.fragment_offset)

/-- Third byte written by `Ipv6FragmentHeader::to_bytes`:
`(fo_be[0] << 3) & 0b1111_1000 | (fo_be[1] >> 5) & 0b0000_0111` where
`fo_be` is the big-endian byte pair of the 16-bit offset. The `u8` shift
left wraps, hence the `% 256`. -/
def write_byte2 (fo : Nat) : Nat :=
  (((((fo >>> 8) % 256) <<< 3) % 256) &&& 0xF8) ||| (((fo % 256) >>> 5) &&& 0x07)

/-- Fourth byte written by `Ipv6FragmentHeader::to_bytes`:
`(fo_be[1] & 0b0001_1111) | (more_fragments ? 0b1000_0000 : 0)`. -/
def write_byte3 (fo : Nat) (mf : Bool) : Nat :=
  ((fo % 256) &&& 0x1F) ||| (if mf then 0x80 else 0)

/-- Serialized form of the header, from `Ipv6FragmentHeader::to_bytes`:
`[next_header, 0, byte2, byte3, id_be[0], id_be[1], id_be[2], id_be[3]]`
with `id_be` the big-endian bytes of the 32-bit identification. -/
def to_bytes (h : Ipv6FragmentHeader) : List Nat :=
  [ h.next_header,
    0,
    write_byte2 h.fragment_offset,
    write_byte3 h.fragment_offset h.more_fragments,
    (h.identification >>> 24) % 256,
    (h.identification >>> 16) % 256,
    (h.identification >>> 8) % 256,
    h.identification % 256 ]

end Ipv6FragmentHeader

/-- Fragment offset extraction shared by `Ipv6FragmentHeaderSlice::fragment_offset`
and `Ipv6FragmentHeader::read`:
`u16::from_be_bytes([(b2 >> 3) & 0b0001_1111, ((b2 << 5) & 0b1110_0000) | (b3 & 0b0001_1111)])`.
The `u8` shift left wraps, hence the `% 256`; `u16::from_be_bytes` is
`hi * 256 + lo`. -/
def read_offset (b2 b3 : Nat) : Nat :=
  ((b2 >>> 3) &&& 0x1F) * 256 + ((((b2 <<< 5) % 256) &&& 0xE0) ||| (b3 &&& 0x1F))

/-- More-fragments flag extraction shared by `Ipv6FragmentHeaderSlice::more_fragments`
and `Ipv6FragmentHeader::read`: `0 != b3 & 0b1000_0000`. -/
def read_more_fragments (b3 : Nat) : Bool :=
  0 != (b3 &&& 0x80)

/-- Big-endian 32-bit assembly, `u32::from_be_bytes([a, b, c, d])`. -/
def u32_from_be_bytes (a b c d : Nat) : Nat :=
  a * 16777216 + b * 65536 + c * 256 + d

/-- Borrowed slice view over an IPv6 fragment header, from
`Ipv6FragmentHeaderSlice`. The borrowed region is modelled as the list of
its byte values; the constructor stores exactly the first 8 bytes
(`from_raw_parts(slice.as_ptr(), 8)`). -/
structure Ipv6FragmentHeaderSlice where
  slice : List Nat
  deriving DecidableEq, Repr

namespace Ipv6FragmentHeaderSlice

/-- Creates a fragment header slice view, from
`Ipv6FragmentHeaderSlice::from_slice`: fails when fewer than 8 bytes are
present, otherwise borrows exactly the first 8 bytes.

The success path follows the source (`slice.len() < 8` check, then
`from_raw_parts(ptr, 8)`). The error value is modelled from the spec:
the current-API slice type returning `err::LenError` is not among the
provided sources (the superseded generation in the sources returns a flat
`UnexpectedEndOfSlice(8)`); the spec's truncation boundary prescribes
required length 8, the actual length, the fragment-header layer tag and
layer start offset 0, which the repository's `from_slice` test asserts
verbatim. -/
def from_slice (slice : List Nat) : Except LenError Ipv6FragmentHeaderSlice :=
  if slice.length < 8 then
    .error { required_len := 8, len := slice.length, len_source := LenSource.Slice,
             layer := Layer.Ipv6FragHeader, layer_start_offset := 0 }
  else
    .ok ⟨slice.take 8⟩

/-- IP protocol number of the next header, from
`Ipv6FragmentHeaderSlice::next_header`: byte 0 of the slice. -/
def next_header (s : Ipv6FragmentHeaderSlice) : Nat :=
  s.slice.getD 0 0

/-- Fragment offset in 8 octets, from
`Ipv6FragmentHeaderSlice::fragment_offset`: bit extraction over bytes 2
and 3 of the slice. -/
def fragment_offset (s : Ipv6FragmentHeaderSlice) : Nat :=
  read_offset (s.slice.getD 2 0) (s.slice.getD 3 0)

/-- More-fragments flag, from `Ipv6FragmentHeaderSlice::more_fragments`:
`0 != slice[3] & 0b1000_0000`. -/
def more_fragments (s : Ipv6FragmentHeaderSlice) : Bool :=
  read_more_fragments (s.slice.getD 3 0)

/-- Identification value, from `Ipv6FragmentHeaderSlice::identification`:
big-endian 32-bit value over bytes 4..7. -/
def identification (s : Ipv6FragmentHeaderSlice) : Nat :=
  u32_from_be_bytes (s.slice.getD 4 0) (s.slice.getD 5 0)
    (s.slice.getD 6 0) (s.slice.getD 7 0)

/-- Optimized fragmenting test over the raw bytes, from
`Ipv6FragmentHeaderSlice::is_fragmenting_payload`:
`0 != slice[2] || 0 != (slice[3] & 0b1001_1111)` (the reserved bits of
byte 3 are excluded by the mask). -/
def is_fragmenting_payload (s : Ipv6FragmentHeaderSlice) : Bool :=
  (0 != s.slice.getD 2 0) || (0 != (s.slice.getD 3 0 &&& 0x9F))

/-- Decode the fields into an owned header, from
`Ipv6FragmentHeaderSlice::to_header`. -/
def to_header (s : Ipv6FragmentHeaderSlice) : Ipv6FragmentHeader :=
  { next_header := s.next_header,
    fragment_offset := s.fragment_offset,
    more_fragments := s.more_fragments,
    identification := s.identification }

end Ipv6FragmentHeaderSlice

namespace Ipv6FragmentHeader

/-- Read a fragment header from a slice and return the header and the
unused rest of the slice, from `Ipv6FragmentHeader::from_slice`. -/
def from_slice (slice : List Nat) :
    Except LenError (Ipv6FragmentHeader × List Nat) :=
  match Ipv6FragmentHeaderSlice.from_slice slice with
  | .error e => .error e
  | .ok s => .ok (s.to_header, slice.drop 8)

end Ipv6FragmentHeader

/-- Native stream error, modelling the relevant `std::io::Error` kinds:
`UnexpectedEof` raised by a short `read_exact`, `WriteZero` raised by a
short `write_all`. Distinct by construction from `LenError`, the slice
error channel. -/
inductive IoError where
  | UnexpectedEof
  | WriteZero
  deriving DecidableEq, Repr

/-- A readable byte stream, modelling the `std::io::Read` source handed to
`Ipv6FragmentHeader::read`: the underlying data, the cursor position, and
a log of the sizes of the exact-length reads performed so far (so that
the number of reads an operation performs is observable). -/
structure ReadStream where
  data : List Nat
  pos : Nat
  log : List Nat
  deriving DecidableEq, Repr

/-- Exact-length read of `n` bytes, modelling `std::io::Read::read_exact`:
on success returns the `n` bytes at the cursor and advances the cursor by
exactly `n`; when fewer than `n` bytes remain it fails with the native
`UnexpectedEof` error. -/
def readExact (r : ReadStream) (n : Nat) :
    Except IoError (List Nat × ReadStream) :=
  if r.pos + n ≤ r.data.length then
    .ok ((r.data.drop r.pos).take n,
         { data := r.data, pos := r.pos + n, log := r.log ++ [n] })
  else
    .error IoError.UnexpectedEof

namespace Ipv6FragmentHeader

/-- Read a fragment header from the current reader position, from
`Ipv6FragmentHeader::read`: a single `read_exact` into an 8-byte buffer,
then pure bit extraction from that buffer. A failure of the read is the
stream's own error, propagated unchanged by the `?` operator. -/
def read (r : ReadStream) :
    Except IoError (Ipv6FragmentHeader × ReadStream) :=
  match readExact r 8 with
  | .error e => .error e
  | .ok (buffer, r2) =>
    .ok ({ next_header := buffer.getD 0 0,
           fragment_offset := read_offset (buffer.getD 2 0) (buffer.getD 3 0),
           more_fragments := read_more_fragments (buffer.getD 3 0),
           identification := u32_from_be_bytes (buffer.getD 4 0)
             (buffer.getD 5 0) (buffer.getD 6 0) (buffer.getD 7 0) },
         r2)

end Ipv6FragmentHeader

/-- A writable byte stream with a fixed capacity, modelling the
`std::io::Write` sink handed to `Ipv6FragmentHeader::write` (the
repository's tests use cursors over fixed-size buffers). -/
structure WriteStream where
  cap : Nat
  written : List Nat
  deriving DecidableEq, Repr

/-- Exact-length write, modelling `std::io::Write::write_all`: appends all
bytes when they fit in the remaining capacity, otherwise fails with the
native `WriteZero` error. -/
def writeAll (w : WriteStream) (bytes : List Nat) :
    Except IoError WriteStream :=
  if w.written.length + bytes.length ≤ w.cap then
    .ok { cap := w.cap, written := w.written ++ bytes }
  else
    .error IoError.WriteZero

namespace Ipv6FragmentHeader

/-- Write the fragment header to a stream, from
`Ipv6FragmentHeader::write`: `writer.write_all(&self.to_bytes())`. -/
def write (h : Ipv6FragmentHeader) (w : WriteStream) :
    Except IoError WriteStream :=
  writeAll w h.to_bytes

end Ipv6FragmentHeader

/-- Truncation error of the IPv4 slice error union, from
`err::UnexpectedEndOfSliceError`. -/
structure UnexpectedEndOfSliceError where
  expected_min : Nat
  actual : Nat
  layer : Layer
  deriving DecidableEq, Repr

/-- Content error for the IPv4 header, from `err::ipv4::HeaderError`. -/
inductive HeaderError where
  | UnexpectedVersion (version_number : Nat)
  deriving DecidableEq, Repr

/-- Error when decoding the IPv4 part of a message, from
`err::ipv4::HeaderSliceError`: either an unexpected end of slice or a
content error. -/
inductive HeaderSliceError where
  | UnexpectedEndOfSlice (e : UnexpectedEndOfSliceError)
  | Content (e : HeaderError)
  deriving DecidableEq, Repr

namespace HeaderSliceError

/-- Nested-cause accessor, from the `std::error::Error::source`
implementation of `HeaderSliceError`: `None` for
`UnexpectedEndOfSlice(_)`, `Some(err)` for `Content(err)`. -/
def source : HeaderSliceError → Option HeaderError
  | .UnexpectedEndOfSlice _ => none
  | .Content e => some e

end HeaderSliceError

/-! ### Bit-level helper lemmas

Each mask/shift pair of the wire layout is characterized arithmetically
over the byte range it is applied to; the claims are then settled with
linear arithmetic over these characterizations. -/

theorem shl5_and_224 : ∀ x < 256, ((x <<< 5) % 256) &&& 224 = (x % 8) * 32 := by
  decide

theorem shr3_and_31 : ∀ x < 256, (x >>> 3) &&& 31 = x / 8 := by
  decide

theorem and_31_eq_mod : ∀ x < 256, x &&& 31 = x % 32 := by
  decide

theorem and_128_eq : ∀ x < 256, x &&& 128 = (x / 128) * 128 := by
  decide

theorem and_159_eq : ∀ x < 256, x &&& 159 = (x / 128) * 128 + x % 32 := by
  decide

theorem or_mul32_eq_add : ∀ a < 8, ∀ b < 32, (a * 32) ||| b = a * 32 + b := by
  decide

theorem shl3_and_248 : ∀ h < 32, ((h <<< 3) % 256) &&& 248 = h * 8 := by
  decide

theorem shr5_and_7 : ∀ x < 256, (x >>> 5) &&& 7 = x / 32 := by
  decide

theorem or_mul8_eq_add : ∀ a < 32, ∀ b < 8, (a * 8) ||| b = a * 8 + b := by
  decide

theorem or_128_eq_add : ∀ a < 32, a ||| 128 = a + 128 := by
  decide

/-- Arithmetic characterization of the encoded third byte for in-range
offsets. -/
theorem write_byte2_eq (fo : Nat) (hfo : fo < 8192) :
    Ipv6FragmentHeader.write_byte2 fo = (fo / 256) * 8 + (fo % 256) / 32 := by
  have hs : fo >>> 8 = fo / 256 := by
    rw [Nat.shiftRight_eq_div_pow]
  have h32 : fo / 256 < 32 := by omega
  unfold Ipv6FragmentHeader.write_byte2
  rw [hs, Nat.mod_eq_of_lt (show fo / 256 < 256 by omega),
      shl3_and_248 _ h32, shr5_and_7 _ (by omega),
      or_mul8_eq_add _ h32 _ (by omega)]

/-- Arithmetic characterization of the encoded fourth byte when the
more-fragments flag is clear. -/
theorem write_byte3_false_eq (fo : Nat) :
    Ipv6FragmentHeader.write_byte3 fo false = fo % 256 % 32 := by
  unfold Ipv6FragmentHeader.write_byte3
  rw [and_31_eq_mod _ (by omega)]
  simp [Nat.or_zero]

/-- Arithmetic characterization of the encoded fourth byte when the
more-fragments flag is set. -/
theorem write_byte3_true_eq (fo : Nat) :
    Ipv6FragmentHeader.write_byte3 fo true = fo % 256 % 32 + 128 := by
  unfold Ipv6FragmentHeader.write_byte3
  rw [and_31_eq_mod _ (by omega)]
  simp [or_128_eq_add _ (show fo % 256 % 32 < 32 by omega)]

/-- Arithmetic characterization of the decoded fragment offset over byte
values. -/
theorem read_offset_eq (b2 b3 : Nat) (h2 : b2 < 256) (h3 : b3 < 256) :
    read_offset b2 b3 = (b2 / 8) * 256 + ((b2 % 8) * 32 + b3 % 32) := by
  unfold read_offset
  rw [shr3_and_31 _ h2, shl5_and_224 _ h2, and_31_eq_mod _ h3,
      or_mul32_eq_add _ (by omega) _ (by omega)]

/-- Decoding the bytes produced by the offset/flag encoding recovers the
offset and the flag, for every 13-bit offset. -/
theorem roundtrip_bits (fo : Nat) (hfo : fo ≤ 8191) (mf : Bool) :
    read_offset (Ipv6FragmentHeader.write_byte2 fo)
      (Ipv6FragmentHeader.write_byte3 fo mf) = fo ∧
    read_more_fragments (Ipv6FragmentHeader.write_byte3 fo mf) = mf := by
  have hb2 := write_byte2_eq fo (by omega)
  cases mf
  · rw [write_byte3_false_eq fo, hb2]
    refine ⟨?_, ?_⟩
    · rw [read_offset_eq _ _ (by omega) (by omega)]
      omega
    · have h0 : fo % 256 % 32 &&& 128 = 0 := by
        rw [and_128_eq _ (by omega)]; omega
      simp [read_more_fragments, h0]
  · rw [write_byte3_true_eq fo, hb2]
    refine ⟨?_, ?_⟩
    · rw [read_offset_eq _ _ (by omega) (by omega)]
      omega
    · have h1 : (fo % 256 % 32 + 128) &&& 128 = 128 := by
        rw [and_128_eq _ (by omega)]; omega
      simp [read_more_fragments, h1]

/-- The serialized header always has exactly 8 bytes. -/
theorem to_bytes_length (h : Ipv6FragmentHeader) : h.to_bytes.length = 8 :=
  rfl

/-- Big-endian 32-bit disassembly then reassembly is the identity on
32-bit values. -/
theorem u32_be_roundtrip (id : Nat) (hid : id < 4294967296) :
    u32_from_be_bytes ((id >>> 24) % 256) ((id >>> 16) % 256)
      ((id >>> 8) % 256) (id % 256) = id := by
  have e24 : id >>> 24 = id / 16777216 := by
    rw [Nat.shiftRight_eq_div_pow]
  have e16 : id >>> 16 = id / 65536 := by
    rw [Nat.shiftRight_eq_div_pow]
  have e8 : id >>> 8 = id / 256 := by
    rw [Nat.shiftRight_eq_div_pow]
  unfold u32_from_be_bytes
  rw [e24, e16, e8]
  omega

/-- A default-0 indexed byte of a list of bytes is always below 256. -/
theorem getD_lt_256 (l : List Nat) (hv : ∀ x ∈ l, x < 256) (i : Nat) :
    l.getD i 0 < 256 := by
  by_cases hi : i < l.length
  · rw [List.getD_eq_getElem l 0 hi]
    exact hv _ (List.getElem_mem hi)
  · rw [List.getD_eq_default l 0 (by omega)]
    omega

/-- The optimized raw-byte fragmenting test agrees with the decoded-field
test, over arbitrary byte values. -/
theorem frag_bytes_equiv (b2 b3 : Nat) (h2 : b2 < 256) (h3 : b3 < 256) :
    ((0 != b2) || (0 != (b3 &&& 0x9F))) =
      (read_more_fragments b3 || (0 != read_offset b2 b3)) := by
  apply Bool.eq_iff_iff.mpr
  simp only [Bool.or_eq_true, bne_iff_ne, ne_eq, read_more_fragments]
  rw [and_159_eq _ h3, and_128_eq _ h3, read_offset_eq _ _ h2 h3]
  omega

/-! ### Claim theorems -/

/-- Claim C1: decoding the 8 bytes produced by `to_bytes` (via
`Ipv6FragmentHeader::from_slice`, i.e. `Ipv6FragmentHeaderSlice::from_slice`
followed by `to_header`) yields the original header, for every header
whose fragment offset is a valid 13-bit value (and whose other fields are
in their machine-integer ranges). -/
theorem from_slice_to_bytes_round_trip (h : Ipv6FragmentHeader)
    (hfo : h.fragment_offset ≤ 8191) (hid : h.identification < 4294967296) :
    Ipv6FragmentHeader.from_slice h.to_bytes = .ok (h, []) := by
  obtain ⟨nh, fo, mf, id⟩ := h
  obtain ⟨hoff, hmf⟩ := roundtrip_bits fo hfo mf
  have hu32 := u32_be_roundtrip id hid
  simp [Ipv6FragmentHeader.from_slice, Ipv6FragmentHeaderSlice.from_slice,
        Ipv6FragmentHeader.to_bytes, Ipv6FragmentHeaderSlice.to_header,
        Ipv6FragmentHeaderSlice.next_header,
        Ipv6FragmentHeaderSlice.fragment_offset,
        Ipv6FragmentHeaderSlice.more_fragments,
        Ipv6FragmentHeaderSlice.identification,
        List.getD, hoff, hmf, hu32]

/-- Witness for claim C1 at a concrete header. -/
theorem from_slice_to_bytes_round_trip_witness :
    Ipv6FragmentHeader.from_slice
      (Ipv6FragmentHeader.to_bytes ⟨17, 8191, true, 305419896⟩) =
      .ok (⟨17, 8191, true, 305419896⟩, []) :=
  from_slice_to_bytes_round_trip ⟨17, 8191, true, 305419896⟩
    (by decide) (by decide)

/-- Claim C2 counterexample: encoding the header with offset 8191 and the
more-fragments flag set does not produce `[6, 0, 0xFF, 0xFF, 0, 0, 0, 1]`
as claimed: the reserved bits 6..5 of byte 3 are written as zero. -/
theorem encode_vector2_counterexample :
    Ipv6FragmentHeader.to_bytes ⟨6, 8191, true, 1⟩ ≠
      [6, 0, 0xFF, 0xFF, 0, 0, 0, 1] := by
  decide

/-- Claim C2 amended: encoding the header
`{next_header: 6, fragment_offset: 8191, more_fragments: true,
identification: 1}` produces `[6, 0, 0xFF, 0x9F, 0, 0, 0, 1]` (byte 3 is
`0x9F`: bit 7 the flag, bits 6..5 reserved written as zero, bits 4..0 the
low offset bits). -/
theorem encode_vector2_amended :
    Ipv6FragmentHeader.to_bytes ⟨6, 8191, true, 1⟩ =
      [6, 0, 0xFF, 0x9F, 0, 0, 0, 1] := by
  decide

/-- Claim C3: decoding any buffer shorter than 8 bytes fails, both at the
slice-view and at the header entry point, with the length error carrying
required length 8, the actual buffer length, the fragment-header layer
tag (and slice length source, layer start offset 0). -/
theorem from_slice_truncation_error (l : List Nat) (hl : l.length < 8) :
    Ipv6FragmentHeaderSlice.from_slice l =
      .error { required_len := 8, len := l.length,
               len_source := LenSource.Slice,
               layer := Layer.Ipv6FragHeader, layer_start_offset := 0 } ∧
    Ipv6FragmentHeader.from_slice l =
      .error { required_len := 8, len := l.length,
               len_source := LenSource.Slice,
               layer := Layer.Ipv6FragHeader, layer_start_offset := 0 } := by
  have hs : Ipv6FragmentHeaderSlice.from_slice l =
      .error { required_len := 8, len := l.length,
               len_source := LenSource.Slice,
               layer := Layer.Ipv6FragHeader, layer_start_offset := 0 } := by
    unfold Ipv6FragmentHeaderSlice.from_slice
    rw [if_pos hl]
  refine ⟨hs, ?_⟩
  unfold Ipv6FragmentHeader.from_slice
  rw [hs]

/-- Witness for claim C3 at the 3-byte buffer `[1, 2, 3]`. -/
theorem from_slice_truncation_error_witness :
    Ipv6FragmentHeaderSlice.from_slice [1, 2, 3] =
      .error { required_len := 8, len := 3, len_source := LenSource.Slice,
               layer := Layer.Ipv6FragHeader, layer_start_offset := 0 } ∧
    Ipv6FragmentHeader.from_slice [1, 2, 3] =
      .error { required_len := 8, len := 3, len_source := LenSource.Slice,
               layer := Layer.Ipv6FragHeader, layer_start_offset := 0 } :=
  from_slice_truncation_error [1, 2, 3] (by decide)

/-- Claim C4: `is_fragmenting_payload` returns false exactly when the
fragment offset is zero and the more-fragments flag is clear; for every
other combination it returns true. -/
theorem is_fragmenting_payload_false_iff (h : Ipv6FragmentHeader) :
    h.is_fragmenting_payload = false ↔
      (h.fragment_offset = 0 ∧ h.more_fragments = false) := by
  unfold Ipv6FragmentHeader.is_fragmenting_payload
  cases hm : h.more_fragments
  · rw [Bool.false_or, bne_eq_false_iff_eq]
    constructor
    · intro h0
      exact ⟨h0.symm, rfl⟩
    · intro h0
      exact h0.1.symm
  · simp

/-- Claim C5: two 8-byte inputs that agree on byte 0, on byte 2, on the
non-reserved bits of byte 3 (the mask `0b1001_1111`) and on bytes 4..7,
but differ arbitrarily in byte 1 and in bits 6..5 of byte 3, both decode
successfully and to identical field values. -/
theorem reserved_bits_tolerated (a b : List Nat)
    (hla : a.length = 8) (hlb : b.length = 8)
    (hva : ∀ x ∈ a, x < 256) (hvb : ∀ x ∈ b, x < 256)
    (h0 : a.getD 0 0 = b.getD 0 0)
    (h2 : a.getD 2 0 = b.getD 2 0)
    (h3 : a.getD 3 0 &&& 0x9F = b.getD 3 0 &&& 0x9F)
    (h4 : a.getD 4 0 = b.getD 4 0) (h5 : a.getD 5 0 = b.getD 5 0)
    (h6 : a.getD 6 0 = b.getD 6 0) (h7 : a.getD 7 0 = b.getD 7 0) :
    Ipv6FragmentHeaderSlice.from_slice a = .ok ⟨a⟩ ∧
    Ipv6FragmentHeaderSlice.from_slice b = .ok ⟨b⟩ ∧
    Ipv6FragmentHeaderSlice.to_header ⟨a⟩ =
      Ipv6FragmentHeaderSlice.to_header ⟨b⟩ := by
  have ha3 : a.getD 3 0 < 256 := getD_lt_256 a hva 3
  have hb3 : b.getD 3 0 < 256 := getD_lt_256 b hvb 3
  have hmod : a.getD 3 0 % 32 = b.getD 3 0 % 32 ∧
      a.getD 3 0 / 128 = b.getD 3 0 / 128 := by
    rw [and_159_eq _ ha3, and_159_eq _ hb3] at h3
    constructor <;> omega
  have hand31 : a.getD 3 0 &&& 0x1F = b.getD 3 0 &&& 0x1F := by
    rw [and_31_eq_mod _ ha3, and_31_eq_mod _ hb3]
    exact hmod.1
  have hand128 : a.getD 3 0 &&& 0x80 = b.getD 3 0 &&& 0x80 := by
    rw [and_128_eq _ ha3, and_128_eq _ hb3, hmod.2]
  refine ⟨?_, ?_, ?_⟩
  · unfold Ipv6FragmentHeaderSlice.from_slice
    rw [if_neg (by omega), List.take_of_length_le (by omega)]
  · unfold Ipv6FragmentHeaderSlice.from_slice
    rw [if_neg (by omega), List.take_of_length_le (by omega)]
  · unfold Ipv6FragmentHeaderSlice.to_header
      Ipv6FragmentHeaderSlice.next_header
      Ipv6FragmentHeaderSlice.fragment_offset
      Ipv6FragmentHeaderSlice.more_fragments
      Ipv6FragmentHeaderSlice.identification
      read_offset read_more_fragments
    dsimp only
    rw [h0, h2, hand31, hand128, h4, h5, h6, h7]

/-- Witness for claim C5: the two buffers agree outside byte 1 and bits
6..5 of byte 3 and decode to the same header. -/
theorem reserved_bits_tolerated_witness :
    Ipv6FragmentHeaderSlice.from_slice [6, 0, 255, 159, 0, 0, 0, 1] =
      .ok ⟨[6, 0, 255, 159, 0, 0, 0, 1]⟩ ∧
    Ipv6FragmentHeaderSlice.from_slice [6, 77, 255, 255, 0, 0, 0, 1] =
      .ok ⟨[6, 77, 255, 255, 0, 0, 0, 1]⟩ ∧
    Ipv6FragmentHeaderSlice.to_header ⟨[6, 0, 255, 159, 0, 0, 0, 1]⟩ =
      Ipv6FragmentHeaderSlice.to_header ⟨[6, 77, 255, 255, 0, 0, 0, 1]⟩ :=
  reserved_bits_tolerated [6, 0, 255, 159, 0, 0, 0, 1]
    [6, 77, 255, 255, 0, 0, 0, 1] (by decide) (by decide) (by decide)
    (by decide) (by decide) (by decide) (by decide) (by decide)
    (by decide) (by decide) (by decide)

/-- Claim C6: the fragment offset extracted by the decode bit operations
is at most 8191 for every pair of input byte values (indeed for all
naturals), so the 13-bit precondition of the trusted `IpFragOffset`
constructor always holds and decoding an 8-byte input has no error
branch. -/
theorem read_offset_always_13_bit (b2 b3 : Nat) : read_offset b2 b3 ≤ 8191 := by
  have h1 : (b2 >>> 3) &&& 0x1F ≤ 0x1F := Nat.and_le_right
  have h4 : (((b2 <<< 5) % 256) &&& 0xE0) ||| (b3 &&& 0x1F) < 256 := by
    have h2 : ((b2 <<< 5) % 256) &&& 0xE0 ≤ 0xE0 := Nat.and_le_right
    have h3 : b3 &&& 0x1F ≤ 0x1F := Nat.and_le_right
    have hpow : (2 : Nat) ^ 8 = 256 := by norm_num
    have ha : ((b2 <<< 5) % 256) &&& 0xE0 < 2 ^ 8 := by rw [hpow]; omega
    have hb : b3 &&& 0x1F < 2 ^ 8 := by rw [hpow]; omega
    have hor := Nat.or_lt_two_pow ha hb
    rw [hpow] at hor
    exact hor
  unfold read_offset
  omega

/-- Claim C7: the stream read performs exactly one exact-length read of 8
bytes; on success the stream position has advanced by exactly
`header_len() = 8` bytes, and a short read surfaces as the native stream
error `UnexpectedEof`, not as a slice length error. -/
theorem read_stream_contract (r : ReadStream) :
    (r.pos + 8 ≤ r.data.length →
      ∃ h r2, Ipv6FragmentHeader.read r = .ok (h, r2) ∧
        r2.pos = r.pos + Ipv6FragmentHeader.LEN ∧
        r2.data = r.data ∧ r2.log = r.log ++ [8]) ∧
    (r.data.length < r.pos + 8 →
      Ipv6FragmentHeader.read r = .error IoError.UnexpectedEof) := by
  constructor
  · intro hle
    unfold Ipv6FragmentHeader.read readExact
    rw [if_pos hle]
    exact ⟨_, _, rfl, rfl, rfl, rfl⟩
  · intro hlt
    unfold Ipv6FragmentHeader.read readExact
    rw [if_neg (by omega)]

/-- Witness for claim C7: a stream holding exactly 8 bytes is read with
one 8-byte exact read, and a 3-byte stream fails with the native error. -/
theorem read_stream_contract_witness :
    (∃ h r2,
      Ipv6FragmentHeader.read ⟨[0, 0, 0, 0, 1, 2, 3, 4], 0, []⟩ =
        .ok (h, r2) ∧
      r2.pos = 0 + Ipv6FragmentHeader.LEN ∧
      r2.data = [0, 0, 0, 0, 1, 2, 3, 4] ∧ r2.log = [] ++ [8]) ∧
    Ipv6FragmentHeader.read ⟨[1, 2, 3], 0, []⟩ =
      .error IoError.UnexpectedEof :=
  ⟨(read_stream_contract ⟨[0, 0, 0, 0, 1, 2, 3, 4], 0, []⟩).1 (by decide),
   (read_stream_contract ⟨[1, 2, 3], 0, []⟩).2 (by decide)⟩

/-- Claim C8: encoding is total: `to_bytes` always produces exactly 8
bytes with no error path, a successful stream write appends exactly those
8 bytes, and a stream write can fail only with the stream's own error,
which happens exactly when the sink lacks capacity for 8 more bytes. -/
theorem encode_write_total (h : Ipv6FragmentHeader) (w : WriteStream) :
    h.to_bytes.length = 8 ∧
    (w.written.length + 8 ≤ w.cap →
      h.write w = .ok ⟨w.cap, w.written ++ h.to_bytes⟩) ∧
    (∀ e, h.write w = .error e →
      e = IoError.WriteZero ∧ w.cap < w.written.length + 8) := by
  have hlen := to_bytes_length h
  refine ⟨hlen, ?_, ?_⟩
  · intro hcap
    unfold Ipv6FragmentHeader.write writeAll
    rw [if_pos (by omega)]
  · intro e he
    unfold Ipv6FragmentHeader.write writeAll at he
    by_cases hc : w.written.length + h.to_bytes.length ≤ w.cap
    · rw [if_pos hc] at he
      exact Except.noConfusion he
    · rw [if_neg hc] at he
      injection he with he9
      exact ⟨he9.symm, by omega⟩

/-- Witness for claim C8: a concrete header is 8 bytes long, writes whole
into a sink of capacity 8, and fails with the sink error on capacity 3. -/
theorem encode_write_total_witness :
    (Ipv6FragmentHeader.to_bytes ⟨6, 8191, true, 1⟩).length = 8 ∧
    Ipv6FragmentHeader.write ⟨6, 8191, true, 1⟩ ⟨8, []⟩ =
      .ok ⟨8, [] ++ Ipv6FragmentHeader.to_bytes ⟨6, 8191, true, 1⟩⟩ ∧
    (IoError.WriteZero = IoError.WriteZero ∧ 3 < ([] : List Nat).length + 8) :=
  ⟨(encode_write_total ⟨6, 8191, true, 1⟩ ⟨8, []⟩).1,
   (encode_write_total ⟨6, 8191, true, 1⟩ ⟨8, []⟩).2.1 (by decide),
   (encode_write_total ⟨6, 8191, true, 1⟩ ⟨3, []⟩).2.2
     IoError.WriteZero (by rfl)⟩

/-- Claim C9: the nested-cause accessor of the slice-decode error union
returns no cause for every truncation error and returns the contained
violation for every content error; it returns a cause exactly when the
error is a content error. -/
theorem header_slice_error_source_spec :
    (∀ t, (HeaderSliceError.UnexpectedEndOfSlice t).source = none) ∧
    (∀ c, (HeaderSliceError.Content c).source = some c) ∧
    (∀ e : HeaderSliceError,
      (e.source).isSome = true ↔ ∃ c, e = HeaderSliceError.Content c) := by
  refine ⟨fun t => rfl, fun c => rfl, fun e => ?_⟩
  cases e with
  | UnexpectedEndOfSlice t => simp [HeaderSliceError.source]
  | Content c => simp [HeaderSliceError.source]

/-- Claim C10: for every successfully constructed slice view over valid
bytes, the optimized raw-byte fragmenting test returns exactly the same
boolean as the decoded-field definition on `to_header`. -/
theorem slice_is_fragmenting_payload_refines (l : List Nat)
    (s : Ipv6FragmentHeaderSlice) (hv : ∀ x ∈ l, x < 256)
    (hok : Ipv6FragmentHeaderSlice.from_slice l = .ok s) :
    s.is_fragmenting_payload = (s.to_header).is_fragmenting_payload := by
  unfold Ipv6FragmentHeaderSlice.from_slice at hok
  by_cases hl : l.length < 8
  · rw [if_pos hl] at hok
    exact Except.noConfusion hok
  · rw [if_neg hl] at hok
    injection hok with hok9
    subst hok9
    have hv8 : ∀ x ∈ l.take 8, x < 256 := fun x hx =>
      hv x (List.take_subset 8 l hx)
    have h2 : (l.take 8).getD 2 0 < 256 := getD_lt_256 _ hv8 2
    have h3 : (l.take 8).getD 3 0 < 256 := getD_lt_256 _ hv8 3
    unfold Ipv6FragmentHeaderSlice.is_fragmenting_payload
      Ipv6FragmentHeaderSlice.to_header
      Ipv6FragmentHeader.is_fragmenting_payload
      Ipv6FragmentHeaderSlice.more_fragments
      Ipv6FragmentHeaderSlice.fragment_offset
    dsimp only
    exact frag_bytes_equiv _ _ h2 h3

/-- Witness for claim C10 on a concrete 8-byte slice with a nonzero
offset. -/
theorem slice_is_fragmenting_payload_refines_witness :
    Ipv6FragmentHeaderSlice.is_fragmenting_payload ⟨[0, 0, 1, 0, 1, 2, 3, 4]⟩ =
      (Ipv6FragmentHeaderSlice.to_header
        ⟨[0, 0, 1, 0, 1, 2, 3, 4]⟩).is_fragmenting_payload :=
  slice_is_fragmenting_payload_refines [0, 0, 1, 0, 1, 2, 3, 4]
    ⟨[0, 0, 1, 0, 1, 2, 3, 4]⟩ (by decide) (by rfl)

end Etherparse
